import Mathlib

/-!
Shallow embedding of the order-placement core of the SmartOps supply-chain
backend (Express + better-sqlite3 + socket.io).

Modelled source files:
* `backend/src/utils/fraudDetection.js` — `detectFraudRisk`
* `backend/src/routes/user.js` — `POST /api/user/orders` (the order
  transaction), the cart read used by `getLines`
* `backend/src/socket/socketHandler.js` — the `inventory_update` handler
* `routes/admin.js` — `PUT /api/admin/products/:id/stock`

Conventions of the embedding:
* JS numbers that hold money/prices are modelled as `ℚ`; stock quantities are
  `Int` (the SQLite column has no sign constraint, and one code path can in
  fact drive it negative); requested quantities are `Nat` (the Joi schema
  `createOrder` requires positive integers).
* A `NaN` produced by `parseFloat` on a non-numeric total amount is modelled
  as `none : Option ℚ`; every JS comparison `NaN > c` is false, which the
  `Option` match reproduces.
* The database is a record of lists of rows; a SQL `SELECT ... WHERE id = ?`
  with `.get` is `List.find?`, an `UPDATE ... WHERE id = ?` is a `List.map`
  that rewrites the matching rows, an `INSERT` appends, a `DELETE` filters.
* `better-sqlite3`'s `db.transaction` rolls the whole unit back when the
  wrapped function throws.  All throws inside this transaction happen in the
  validation loop, before any write; the route wrapper therefore returns the
  untouched database on the error path.
* Catalog columns never read by the modelled operations (description,
  category, sku, location, min_stock, timestamps) are not carried.
-/

namespace SmartOps

/-- Fraud risk band, the values of the `fraud_risk` column. -/
inductive Risk where
  | low
  | medium
  | high
deriving DecidableEq, Repr

/-- The `type` column of `inventory_transactions`. -/
inductive TxnType where
  | sale
  | restock
  | adjustment
deriving DecidableEq, Repr

/-- JS `Number.prototype.toFixed(2)` for the non-negative amounts the fraud
module formats; on amounts that are an exact number of cents (the only ones
the modelled flows produce) flooring agrees with JS rounding. -/
def toFixed2 (q : ℚ) : String :=
  let cents : Int := ⌊q * 100⌋
  let whole : Int := cents / 100
  let frac : Nat := (cents % 100).toNat
  toString whole ++ "." ++ (if frac < 10 then "0" ++ toString frac else toString frac)

/-- Reason string pushed by fraud rule 1 (`fraudDetection.js` line 28). -/
def highValueReason (t : ℚ) : String :=
  "High order value ($" ++ toFixed2 t ++ ")"

/-- Reason string pushed by fraud rule 2 (`fraudDetection.js` line 35). -/
def firstTimeReason : String :=
  "Unusually large order for a first-time customer."

/-- Reason string pushed when `parseFloat(total_amount)` is NaN
(`fraudDetection.js` line 19). -/
def invalidAmountReason : String :=
  "Invalid order amount detected."

/-- Reason string pushed by fraud rule 3 (`fraudDetection.js` line 43); a JS
template literal renders a missing `name` property as "undefined". -/
def bulkHighValueReason (n : Option String) : String :=
  "Bulk order of high-value item: " ++ n.getD "undefined"

/-- `JSON.stringify` escaping for the characters that can occur in the reason
strings (quote and backslash; they contain no control characters). -/
def jsonEscape (s : String) : String :=
  String.join (s.toList.map fun c =>
    if c = '"' then "\\\"" else if c = '\\' then "\\\\" else String.singleton c)

/-- `JSON.stringify` of a JS string. -/
def jsonStringifyString (s : String) : String :=
  "\"" ++ jsonEscape s ++ "\""

/-- `JSON.stringify` of a JS array of strings. -/
def jsonStringifyStringList (xs : List String) : String :=
  "[" ++ String.intercalate "," (xs.map jsonStringifyString) ++ "]"

/-- One element of `orderData.items` as `detectFraudRisk` reads it: the rule
only accesses `price`, `quantity` and `name`; absent JS properties are
`none`. -/
structure FraudItem where
  price : Option ℚ
  quantity : Nat
  name : Option String
deriving DecidableEq, Repr

/-- The fields of `orderData` that `detectFraudRisk` reads.  `total_amount`
is the result of `parseFloat`: `none` models NaN. -/
structure FraudOrder where
  total_amount : Option ℚ
  items : List FraudItem
deriving DecidableEq, Repr

/-- The user-history row `SELECT COUNT(*) as total_orders, SUM(total_amount)
as total_spent FROM orders WHERE user_id = ?`; SQL `SUM` over an empty set is
NULL, hence the `Option`. -/
structure UserHistory where
  total_orders : Nat
  total_spent : Option ℚ
deriving DecidableEq, Repr

/-- Return value of `detectFraudRisk`: the code stringifies the reasons array
before returning it (`fraudDetection.js` line 68), so `fraud_reasons` is a
string. -/
structure FraudResult where
  fraud_risk : Risk
  fraud_reasons : String
deriving DecidableEq, Repr

/-- Fraud rule 3's `items.find(item => item.price > 300 && item.quantity > 3)`.
An absent `price` property makes the comparison false. -/
def rule3Hit (items : List FraudItem) : Option FraudItem :=
  items.find? fun it =>
    match it.price with
    | some pr => decide (300 < pr ∧ 3 < it.quantity)
    | none => false

/-- The score/reasons accumulation of `detectFraudRisk` (lines 10-45), before
banding and stringification.  Each rule contributes its points and reason in
the source order. -/
def fraudScoreReasons (orderData : FraudOrder) (userHistory : Option UserHistory) :
    Nat × List String :=
  let base : Nat × List String :=
    match orderData.total_amount with
    | none => (10, [invalidAmountReason])
    | some _ => (0, [])
  let r1 : Nat × List String :=
    match orderData.total_amount with
    | some t => if 1000 < t then (40, [highValueReason t]) else (0, [])
    | none => (0, [])
  let r2 : Nat × List String :=
    match userHistory, orderData.total_amount with
    | some h, some t =>
        if h.total_orders = 0 ∧ 500 < t then (50, [firstTimeReason]) else (0, [])
    | _, _ => (0, [])
  let r3 : Nat × List String :=
    match rule3Hit orderData.items with
    | some it => (30, [bulkHighValueReason it.name])
    | none => (0, [])
  (base.1 + r1.1 + r2.1 + r3.1, base.2 ++ r1.2 ++ r2.2 ++ r3.2)

/-- The banding of the risk score (`fraudDetection.js` lines 60-65). -/
def riskBand (score : Nat) : Risk :=
  if 70 ≤ score then Risk.high else if 40 ≤ score then Risk.medium else Risk.low

/-- `detectFraudRisk(orderData, userHistory)`: a total function — it returns
for every input (the JS function has no throw site: NaN degrades to a +10
signal). -/
def detectFraudRisk (orderData : FraudOrder) (userHistory : Option UserHistory) :
    FraudResult :=
  let sr := fraudScoreReasons orderData userHistory
  { fraud_risk := riskBand sr.1, fraud_reasons := jsonStringifyStringList sr.2 }

/-- A row of `products` (the columns the modelled operations read or write). -/
structure Product where
  id : Nat
  name : String
  price : ℚ
  stock_quantity : Int
deriving DecidableEq, Repr

/-- A row of `orders`.  `fraud_reasons` stores what the INSERT at
`user.js` line 318 writes: `JSON.stringify(fraud_reasons)` applied to the
already-stringified reasons returned by `detectFraudRisk`. -/
structure OrderRow where
  id : Nat
  user_id : Nat
  total_amount : ℚ
  shipping_address : String
  status : String
  tracking_number : String
  fraud_risk : Risk
  fraud_reasons : String
deriving DecidableEq, Repr

/-- A row of `order_items`. -/
structure OrderItemRow where
  order_id : Nat
  product_id : Nat
  quantity : Nat
  price : ℚ
deriving DecidableEq, Repr

/-- A row of `shipments` (columns the coordinator writes). -/
structure ShipmentRow where
  order_id : Nat
  tracking_number : String
  status : String
  current_location : String
deriving DecidableEq, Repr

/-- A row of `inventory_transactions`; `quantity` stores the signed delta the
code inserts (`-item.quantity` for sales). -/
structure InvTxnRow where
  product_id : Nat
  type : TxnType
  quantity : Int
  previous_quantity : Int
  new_quantity : Int
  reason : String
  created_by : Nat
deriving DecidableEq, Repr

/-- A row of `cart_items`. -/
structure CartItemRow where
  user_id : Nat
  product_id : Nat
  quantity : Nat
deriving DecidableEq, Repr

/-- The mutable database state touched by the modelled operations. -/
structure DBState where
  products : List Product
  orders : List OrderRow
  order_items : List OrderItemRow
  shipments : List ShipmentRow
  inventory_transactions : List InvTxnRow
  cart_items : List CartItemRow
deriving DecidableEq, Repr

/-- `SELECT ... FROM products WHERE id = ?` with `.get`. -/
def getProduct (db : DBState) (pid : Nat) : Option Product :=
  db.products.find? fun p => p.id = pid

/-- The live `stock_quantity` of a product, when it exists. -/
def stockOf (db : DBState) (pid : Nat) : Option Int :=
  (getProduct db pid).map fun p => p.stock_quantity

/-- The Cart Store's `getLines(userId)`: the rows of `cart_items` belonging
to the user (`GET /api/user/cart`; its display ordering by product name is
not semantically significant). -/
def getLines (db : DBState) (uid : Nat) : List CartItemRow :=
  db.cart_items.filter fun c => c.user_id = uid

/-- The history snapshot query of `user.js` lines 304-305. -/
def userHistoryOf (db : DBState) (uid : Nat) : UserHistory :=
  let rows := db.orders.filter fun o => o.user_id = uid
  { total_orders := rows.length
    total_spent :=
      if rows.isEmpty then none
      else some (rows.foldl (fun s o => s + o.total_amount) 0) }

/-- `lastInsertRowid` for the `orders` table. -/
def nextOrderId (db : DBState) : Nat :=
  db.orders.foldl (fun m o => max m o.id) 0 + 1

/-- One element of the request's `items` array.  The Joi schema `createOrder`
admits exactly the keys `productId` and `quantity` (positive integers), so
these are the only properties the forwarded objects have. -/
structure OrderItemInput where
  productId : Nat
  quantity : Nat
deriving DecidableEq, Repr

/-- One element of the `productUpdates` array the validation loop builds
(`user.js` lines 294-301). -/
structure ProductUpdate where
  productId : Nat
  productName : String
  quantity : Nat
  price : ℚ
  previousStock : Int
  newStock : Int
deriving DecidableEq, Repr

/-- The typed errors the order transaction throws (`user.js` lines 285, 288)
plus the route-level empty-items rejection (line 272); the route reports them
with HTTP 400. -/
inductive OrderError where
  | emptyOrder
  | productNotFound (productId : Nat)
  | insufficientStock (name : String) (available : Int) (requested : Nat)
deriving DecidableEq, Repr

/-- The validation loop of the order transaction (`user.js` lines 281-302):
it reads each product, aborts on the first missing product or insufficient
line, accumulates the total and pushes one `ProductUpdate` per line.  No
write happens before or during this loop, so every read sees the database
the transaction started with. -/
def validateItems (db : DBState) : List OrderItemInput →
    Except OrderError (ℚ × List ProductUpdate)
  | [] => Except.ok (0, [])
  | item :: rest =>
    match getProduct db item.productId with
    | none => Except.error (OrderError.productNotFound item.productId)
    | some product =>
      if product.stock_quantity < (item.quantity : Int) then
        Except.error
          (OrderError.insufficientStock product.name product.stock_quantity item.quantity)
      else
        match validateItems db rest with
        | Except.error e => Except.error e
        | Except.ok (restTotal, restUpdates) =>
          Except.ok (product.price * (item.quantity : ℚ) + restTotal,
            { productId := product.id
              productName := product.name
              quantity := item.quantity
              price := product.price
              previousStock := product.stock_quantity
              newStock := product.stock_quantity - (item.quantity : Int) } :: restUpdates)

/-- The `items` array exactly as the coordinator forwards it to
`detectFraudRisk` (`user.js` line 308): the raw request objects, which carry
only `productId` and `quantity` — their `price` and `name` properties are
absent. -/
def coordFraudItems (items : List OrderItemInput) : List FraudItem :=
  items.map fun it => { price := none, quantity := it.quantity, name := none }

/-- `UPDATE products SET stock_quantity = ? WHERE id = ?` with the absolute
`newStock` of one `ProductUpdate` (`user.js` lines 322, 330). -/
def applyStockUpdate (ps : List Product) (u : ProductUpdate) : List Product :=
  ps.map fun p => if p.id = u.productId then { p with stock_quantity := u.newStock } else p

/-- The `inventory_transactions` INSERT of the stock-update loop
(`user.js` lines 332-340): type `sale`, signed delta `-quantity`. -/
def mkSaleTxn (orderId : Nat) (uid : Nat) (u : ProductUpdate) : InvTxnRow :=
  { product_id := u.productId
    type := TxnType.sale
    quantity := -(u.quantity : Int)
    previous_quantity := u.previousStock
    new_quantity := u.newStock
    reason := "Order #" ++ toString orderId
    created_by := uid }

/-- The `order_items` INSERT of the stock-update loop (`user.js` line 329). -/
def mkOrderItemRow (orderId : Nat) (u : ProductUpdate) : OrderItemRow :=
  { order_id := orderId, product_id := u.productId, quantity := u.quantity, price := u.price }

/-- The socket.io broadcasts of the order route, reduced to event kind plus
the identifying payload field (the code sends the full joined order row, the
full re-read product row, and a cart notice for the owning user). -/
inductive Event where
  | order_created (orderId : Nat)
  | inventory_changed (productId : Nat)
  | cart_updated (userId : Nat)
deriving DecidableEq, Repr

/-- The success payload of `POST /api/user/orders` (`user.js` lines 376-383);
`fraudReasons` carries `transactionResult.fraud_reasons`, i.e. the string
returned by `detectFraudRisk`. -/
structure OrderResult where
  orderId : Nat
  trackingNumber : String
  totalAmount : ℚ
  fraudRisk : Risk
  fraudReasons : String
deriving DecidableEq, Repr

/-- The fraud call the coordinator performs (`user.js` lines 304-310): the
live history snapshot and the raw request items feed `detectFraudRisk`. -/
def coordFraudResult (db : DBState) (uid : Nat) (items : List OrderItemInput)
    (totalAmount : ℚ) : FraudResult :=
  detectFraudRisk { total_amount := some totalAmount, items := coordFraudItems items }
    (some (userHistoryOf db uid))

/-- The write phase of the order transaction plus the post-commit broadcasts
(`user.js` lines 312-371), applied once validation has produced the total
and the `productUpdates` array.  Write order inside the transaction: the
order row, then per validated line one `order_items` row, one absolute stock
UPDATE and one `sale` transaction row (grouped per table here; the writes of
the loop read nothing, so the grouping leaves every final table identical),
then the shipment, then the cart wipe.  The broadcasts fire after commit, in
source order: `order_created`, one `inventory_changed` per line (the code
re-reads and sends the committed product row; the event here carries the
product identity), then `cart_updated`. -/
def commitOrder (db : DBState) (userId : Nat) (items : List OrderItemInput)
    (shippingAddress : String) (trackingNumber : String)
    (totalAmount : ℚ) (productUpdates : List ProductUpdate) :
    DBState × OrderResult × List Event :=
  let fr := coordFraudResult db userId items totalAmount
  let orderId := nextOrderId db
  let orderRow : OrderRow :=
    { id := orderId
      user_id := userId
      total_amount := totalAmount
      shipping_address := shippingAddress
      status := "pending"
      tracking_number := trackingNumber
      fraud_risk := fr.fraud_risk
      fraud_reasons := jsonStringifyString fr.fraud_reasons }
  let db' : DBState :=
    { products := productUpdates.foldl applyStockUpdate db.products
      orders := db.orders ++ [orderRow]
      order_items := db.order_items ++ productUpdates.map (mkOrderItemRow orderId)
      shipments := db.shipments ++
        [{ order_id := orderId
           tracking_number := trackingNumber
           status := "pending"
           current_location := "Processing Center" }]
      inventory_transactions := db.inventory_transactions ++
        productUpdates.map (mkSaleTxn orderId userId)
      cart_items := db.cart_items.filter fun c => ¬ c.user_id = userId }
  let events : List Event :=
    Event.order_created orderId ::
      productUpdates.map (fun u => Event.inventory_changed u.productId) ++
      [Event.cart_updated userId]
  (db',
    { orderId := orderId
      trackingNumber := trackingNumber
      totalAmount := totalAmount
      fraudRisk := fr.fraud_risk
      fraudReasons := fr.fraud_reasons },
    events)

/-- The order transaction of `POST /api/user/orders` (`user.js` lines
277-371): fail-fast validation, then the write phase.  `trackingNumber` is
the generated `TRK...` value, passed in because its generator draws on the
clock and `Math.random`. -/
def placeOrder (db : DBState) (userId : Nat) (items : List OrderItemInput)
    (shippingAddress : String) (trackingNumber : String) :
    Except OrderError (DBState × OrderResult × List Event) :=
  match validateItems db items with
  | Except.error e => Except.error e
  | Except.ok (totalAmount, productUpdates) =>
    Except.ok (commitOrder db userId items shippingAddress trackingNumber
      totalAmount productUpdates)

/-- The route around the transaction: the empty-items guard runs first, and a
throw inside `db.transaction` rolls every write back, so the error path hands
back the database unchanged. -/
def placeOrderRoute (db : DBState) (userId : Nat) (items : List OrderItemInput)
    (shippingAddress : String) (trackingNumber : String) :
    DBState × Except OrderError (OrderResult × List Event) :=
  if items.isEmpty then (db, Except.error OrderError.emptyOrder)
  else
    match placeOrder db userId items shippingAddress trackingNumber with
    | Except.error e => (db, Except.error e)
    | Except.ok (db', res, evs) => (db', Except.ok (res, evs))

/-- What the `inventory_update` socket handler sends back or broadcasts. -/
inductive SocketOut where
  | errorMsg (msg : String)
  | inventoryUpdated (productId : Nat) (newQuantity : Int) (change : Int)
  | updateSuccess (productId : Nat) (newQuantity : Int)
deriving DecidableEq, Repr

/-- The `socket.on('inventory_update')` handler
(`socketHandler.js` lines 75-130): admin-only; writes the client-supplied
`quantity` as the absolute new stock with no range check, and appends a
`restock`/`adjustment` transaction depending on the sign of the change. -/
def socketInventoryUpdate (db : DBState) (userRole : String) (userId : Nat)
    (productId : Nat) (quantity : Int) (reason : Option String) :
    DBState × List SocketOut :=
  if userRole = "admin" then
    match getProduct db productId with
    | none => (db, [SocketOut.errorMsg "Product not found"])
    | some current =>
      let products' := db.products.map fun p =>
        if p.id = productId then { p with stock_quantity := quantity } else p
      let changeQuantity := quantity - current.stock_quantity
      let txn : InvTxnRow :=
        { product_id := productId
          type := if 0 < changeQuantity then TxnType.restock else TxnType.adjustment
          quantity := changeQuantity
          previous_quantity := current.stock_quantity
          new_quantity := quantity
          reason := reason.getD "Real-time adjustment"
          created_by := userId }
      ({ db with
          products := products'
          inventory_transactions := db.inventory_transactions ++ [txn] },
        [SocketOut.inventoryUpdated productId quantity changeQuantity,
         SocketOut.updateSuccess productId quantity])
  else (db, [])

/-- `PUT /api/admin/products/:id/stock` (`admin.js` lines 280-317): rejects a
negative (or non-number, outside this model) `stock_quantity` before writing;
the flag reports whether the update was applied. -/
def adminUpdateStockRoute (db : DBState) (productId : Nat) (stock_quantity : Int) :
    DBState × Bool :=
  if stock_quantity < 0 then (db, false)
  else
    match getProduct db productId with
    | none => (db, false)
    | some _ =>
      ({ db with
          products := db.products.map fun p =>
            if p.id = productId then { p with stock_quantity := stock_quantity } else p },
        true)

/-- The last stock update of a list that targets a given product (the one an
absolute-write loop leaves in effect). -/
def lastUpdFor (ups : List ProductUpdate) (pid : Nat) : Option ProductUpdate :=
  ups.reverse.find? fun u => u.productId = pid

/-- The most recently appended inventory transaction for a product. -/
def lastTxnFor (txns : List InvTxnRow) (pid : Nat) : Option InvTxnRow :=
  txns.reverse.find? fun t => t.product_id = pid

/-- Total requested quantity for one product across all lines of an order. -/
def totalQtyFor (items : List OrderItemInput) (pid : Nat) : Nat :=
  ((items.filter fun it => it.productId = pid).map fun it => it.quantity).sum

/-- The broadcast ordering the specification asserts for one order: all
`inventory_changed` events, then `order_created`, then `cart_updated`. -/
def specBroadcastOrder (evs : List Event) : Prop :=
  ∃ pids : List Nat, ∃ oid uid : Nat,
    evs = pids.map Event.inventory_changed ++
      [Event.order_created oid, Event.cart_updated uid]

/-- A small concrete database: one product with stock 5, one cart line for
user 7. -/
def demoDb : DBState :=
  { products := [{ id := 1, name := "Widget", price := 10, stock_quantity := 5 }]
    orders := []
    order_items := []
    shipments := []
    inventory_transactions := []
    cart_items := [{ user_id := 7, product_id := 1, quantity := 2 }] }

/-- A concrete database holding a high-value product and one prior order of
user 7 (so the first-time-customer rule stays quiet). -/
def demoDbCamera : DBState :=
  { products := [{ id := 2, name := "Camera", price := 400, stock_quantity := 10 }]
    orders := [{ id := 1
                 user_id := 7
                 total_amount := 50
                 shipping_address := "addr"
                 status := "pending"
                 tracking_number := "TRK0"
                 fraud_risk := Risk.low
                 fraud_reasons := "\"[]\"" }]
    order_items := []
    shipments := []
    inventory_transactions := []
    cart_items := [] }

/-- A concrete database with a 1500-dollar product and no orders at all. -/
def demoDbLaptop : DBState :=
  { products := [{ id := 3, name := "Laptop", price := 1500, stock_quantity := 5 }]
    orders := []
    order_items := []
    shipments := []
    inventory_transactions := []
    cart_items := [] }

end SmartOps

namespace SmartOps

/-! Helper lemmas about the embedding. -/

/-- On an error result the route hands back the database it was given: the
transaction throws only in the validation loop, before any write, and
`db.transaction` rolls back on throw. -/
lemma placeOrderRoute_error_fst (db : DBState) (uid : Nat)
    (items : List OrderItemInput) (addr trk : String) (e : OrderError)
    (h : (placeOrderRoute db uid items addr trk).2 = Except.error e) :
    (placeOrderRoute db uid items addr trk).1 = db := by
  cases items with
  | nil => rfl
  | cons a l =>
    unfold placeOrderRoute at h ⊢
    simp only [List.isEmpty_cons, Bool.false_eq_true, if_false] at h ⊢
    cases hpo : placeOrder db uid (a :: l) addr trk with
    | error e' => simp [hpo]
    | ok v =>
      rw [hpo] at h
      obtain ⟨db', res, evs⟩ := v
      simp at h

/-- A successful transaction is exactly a successful validation followed by
the write phase. -/
lemma placeOrder_ok_elim {db : DBState} {uid : Nat} {items : List OrderItemInput}
    {addr trk : String} {out : DBState × OrderResult × List Event}
    (h : placeOrder db uid items addr trk = Except.ok out) :
    ∃ T ups, validateItems db items = Except.ok (T, ups) ∧
      out = commitOrder db uid items addr trk T ups := by
  unfold placeOrder at h
  cases hv : validateItems db items with
  | error e => rw [hv] at h; cases h
  | ok p =>
    obtain ⟨T, ups⟩ := p
    rw [hv] at h
    exact ⟨T, ups, rfl, (Except.ok.injEq _ _).mp h.symm⟩

/-- A successful route result comes from a successful transaction. -/
lemma placeOrderRoute_ok_elim {db : DBState} {uid : Nat} {items : List OrderItemInput}
    {addr trk : String} {db' : DBState} {res : OrderResult} {evs : List Event}
    (h : placeOrderRoute db uid items addr trk = (db', Except.ok (res, evs))) :
    placeOrder db uid items addr trk = Except.ok (db', res, evs) := by
  cases items with
  | nil => simp [placeOrderRoute] at h
  | cons a l =>
    unfold placeOrderRoute at h
    simp only [List.isEmpty_cons, Bool.false_eq_true, if_false] at h
    cases hpo : placeOrder db uid (a :: l) addr trk with
    | error e' => rw [hpo] at h; simp at h
    | ok v =>
      obtain ⟨vdb, vres, vevs⟩ := v
      rw [hpo] at h
      obtain ⟨h1, h2⟩ := Prod.mk.injEq .. ▸ h
      obtain ⟨h3, h4⟩ : vres = res ∧ vevs = evs := by
        have := (Except.ok.injEq _ _).mp h2
        exact ⟨congrArg Prod.fst this, congrArg Prod.snd this⟩
      rw [h1, h3, h4]

/-- Filtering a user's lines out of the cart leaves that user no lines. -/
lemma filter_user_after_wipe (l : List CartItemRow) (uid : Nat) :
    (l.filter fun c => ¬ c.user_id = uid).filter (fun c => c.user_id = uid) = [] := by
  induction l with
  | nil => rfl
  | cons c t ih => by_cases hc : c.user_id = uid <;> simp [hc, ih]

/-- The committed state holds no cart line of the ordering user. -/
lemma getLines_commit (db : DBState) (uid : Nat) (items : List OrderItemInput)
    (addr trk : String) (T : ℚ) (ups : List ProductUpdate) :
    getLines (commitOrder db uid items addr trk T ups).1 uid = [] := by
  simp only [getLines, commitOrder]
  exact filter_user_after_wipe db.cart_items uid

end SmartOps

namespace SmartOps

/-- Claim C1: for every placeOrder call that fails after validation begins
(product not found, or requested quantity exceeding current stock, for any
line), no `Product.stockQuantity` is changed, no `InventoryTransaction` row
is written, no `Order`, `OrderLineItem` or `Shipment` row exists for that
attempt, and the caller's cart lines are unchanged. -/
theorem placeOrder_failure_rolls_back (db : DBState) (uid : Nat)
    (items : List OrderItemInput) (addr trk : String) (e : OrderError)
    (hk : (∃ pid, e = OrderError.productNotFound pid) ∨
          ∃ n a r, e = OrderError.insufficientStock n a r)
    (h : (placeOrderRoute db uid items addr trk).2 = Except.error e) :
    (placeOrderRoute db uid items addr trk).1.products = db.products ∧
    (placeOrderRoute db uid items addr trk).1.inventory_transactions =
      db.inventory_transactions ∧
    (placeOrderRoute db uid items addr trk).1.orders = db.orders ∧
    (placeOrderRoute db uid items addr trk).1.order_items = db.order_items ∧
    (placeOrderRoute db uid items addr trk).1.shipments = db.shipments ∧
    getLines (placeOrderRoute db uid items addr trk).1 uid = getLines db uid := by
  rw [placeOrderRoute_error_fst db uid items addr trk e h]
  exact ⟨rfl, rfl, rfl, rfl, rfl, rfl⟩

/-- Witness for C1: a concrete order naming a missing product fails and
leaves the concrete database untouched. -/
theorem placeOrder_failure_rolls_back_witness :
    (placeOrderRoute demoDb 7 [⟨99, 1⟩] "addr" "TRK1").2 =
      Except.error (OrderError.productNotFound 99) ∧
    getLines (placeOrderRoute demoDb 7 [⟨99, 1⟩] "addr" "TRK1").1 7 =
      getLines demoDb 7 := by
  refine ⟨rfl, ?_⟩
  exact (placeOrder_failure_rolls_back demoDb 7 [⟨99, 1⟩] "addr" "TRK1"
    (OrderError.productNotFound 99) (Or.inl ⟨99, rfl⟩) rfl).2.2.2.2.2

/-- Claim C3: after a successful placeOrder the caller's cart is empty;
after any failed attempt the caller's cart lines are exactly what they were
before the call. -/
theorem cart_clears_exactly_on_success (db : DBState) (uid : Nat)
    (items : List OrderItemInput) (addr trk : String) :
    (∀ db' res evs, placeOrderRoute db uid items addr trk = (db', Except.ok (res, evs)) →
      getLines db' uid = []) ∧
    ∀ db' e, placeOrderRoute db uid items addr trk = (db', Except.error e) →
      getLines db' uid = getLines db uid := by
  constructor
  · intro db' res evs h
    obtain ⟨T, ups, hv, hout⟩ := placeOrder_ok_elim (placeOrderRoute_ok_elim h)
    have hdb : db' = (commitOrder db uid items addr trk T ups).1 :=
      congrArg Prod.fst hout
    rw [hdb]
    exact getLines_commit db uid items addr trk T ups
  · intro db' e h
    have h2 : (placeOrderRoute db uid items addr trk).2 = Except.error e := by
      rw [h]
    have h1 := placeOrderRoute_error_fst db uid items addr trk e h2
    rw [h] at h1
    simp only at h1
    rw [h1]

/-- Witness for C3: a concrete successful order empties user 7's cart, and a
concrete failing order leaves it unchanged. -/
theorem cart_clears_exactly_on_success_witness :
    getLines demoDb 7 ≠ [] ∧
    getLines (placeOrderRoute demoDb 7 [⟨1, 2⟩] "addr" "TRK1").1 7 = [] ∧
    getLines (placeOrderRoute demoDb 7 [⟨1, 9⟩] "addr" "TRK1").1 7 = getLines demoDb 7 := by
  have h1 : (10 : ℚ) * 2 = 20 := by norm_num
  have hok : placeOrderRoute demoDb 7 [⟨1, 2⟩] "addr" "TRK1" =
      ({ products := [{ id := 1, name := "Widget", price := 10, stock_quantity := 3 }]
         orders := [{ id := 1
                      user_id := 7
                      total_amount := 20
                      shipping_address := "addr"
                      status := "pending"
                      tracking_number := "TRK1"
                      fraud_risk := Risk.low
                      fraud_reasons := "\"[]\"" }]
         order_items := [{ order_id := 1, product_id := 1, quantity := 2, price := 10 }]
         shipments := [{ order_id := 1
                         tracking_number := "TRK1"
                         status := "pending"
                         current_location := "Processing Center" }]
         inventory_transactions := [{ product_id := 1
                                      type := TxnType.sale
                                      quantity := -2
                                      previous_quantity := 5
                                      new_quantity := 3
                                      reason := "Order #1"
                                      created_by := 7 }]
         cart_items := [] },
       Except.ok
        ({ orderId := 1
           trackingNumber := "TRK1"
           totalAmount := 20
           fraudRisk := Risk.low
           fraudReasons := "[]" },
         [Event.order_created 1, Event.inventory_changed 1, Event.cart_updated 7])) := by
    simp +decide [placeOrderRoute, placeOrder, validateItems, getProduct, demoDb, commitOrder,
      coordFraudResult, detectFraudRisk, fraudScoreReasons, rule3Hit, coordFraudItems,
      userHistoryOf, riskBand, nextOrderId, applyStockUpdate, mkSaleTxn, mkOrderItemRow,
      jsonStringifyStringList, jsonStringifyString, jsonEscape, h1]
  refine ⟨by decide, ?_, ?_⟩
  · rw [hok]
    exact (cart_clears_exactly_on_success demoDb 7 [⟨1, 2⟩] "addr" "TRK1").1 _ _ _ hok
  · exact (cart_clears_exactly_on_success demoDb 7 [⟨1, 9⟩] "addr" "TRK1").2
      demoDb (OrderError.insufficientStock "Widget" 5 9) (by rfl)

/-- How one absolute stock UPDATE changes the result of a product lookup. -/
lemma find?_applyStockUpdate (ps : List Product) (u : ProductUpdate) (pid : Nat) :
    (applyStockUpdate ps u).find? (fun p => p.id = pid) =
      (ps.find? fun p => p.id = pid).map fun p =>
        if p.id = u.productId then { p with stock_quantity := u.newStock } else p := by
  unfold applyStockUpdate
  rw [List.find?_map]
  congr 1
  exact congrArg (fun pr => List.find? pr ps)
    (by funext q; by_cases h : q.id = u.productId <;> simp [Function.comp, h])

/-- Claim C2 counterexample: with stock 5 and two lines of quantity 3 for the
same product, placeOrder succeeds and leaves stock 2 (the last line's
absolute write wins), not 5 - 6 as the per-product decrement claim demands. -/
theorem per_product_decrement_cex :
    stockOf demoDb 1 = some 5 ∧
    totalQtyFor [⟨1, 3⟩, ⟨1, 3⟩] 1 = 6 ∧
    (placeOrder demoDb 7 [⟨1, 3⟩, ⟨1, 3⟩] "addr" "TRK1").toOption.map (fun x => stockOf x.1 1) =
      some (some 2) ∧
    ¬ ((2 : Int) = 5 - (6 : Int)) := by
  refine ⟨rfl, rfl, ?_, by decide⟩
  simp +decide [placeOrder, validateItems, getProduct, demoDb, commitOrder, coordFraudResult,
    detectFraudRisk, fraudScoreReasons, rule3Hit, coordFraudItems, userHistoryOf, riskBand,
    nextOrderId, applyStockUpdate, stockOf, Except.toOption]

/-- Claim C4 counterexample: for a concrete successful order the code emits
`order_created` first, so the events do not match the claimed
inventory-first ordering. -/
theorem broadcast_order_cex :
    (placeOrder demoDb 7 [⟨1, 2⟩] "addr" "TRK1").toOption.map (fun x => x.2.2) =
      some [Event.order_created 1, Event.inventory_changed 1, Event.cart_updated 7] ∧
    ¬ specBroadcastOrder
      [Event.order_created 1, Event.inventory_changed 1, Event.cart_updated 7] := by
  constructor
  · simp +decide [placeOrder, validateItems, getProduct, demoDb, commitOrder, coordFraudResult,
      detectFraudRisk, fraudScoreReasons, rule3Hit, coordFraudItems, userHistoryOf, riskBand,
      nextOrderId, Except.toOption]
  · rintro ⟨pids, oid, uid, h⟩
    cases pids with
    | nil => simp at h
    | cons q qs => simp at h

/-- Claim C5: the line `{productId := 2, quantity := 4}` hits a product of
price 400 > 300 with quantity 4 > 3, yet the order's fraud evaluation scores
it 40 (risk `medium`, only the high-order-value reason): the coordinator
forwards the raw request items, whose `price` property does not exist, so
rule 3 finds no item and never fires for orders placed through placeOrder. -/
theorem bulk_high_value_rule_dead_in_placeOrder :
    ((300 : ℚ) < 400 ∧ 3 < 4) ∧
    rule3Hit (coordFraudItems [⟨2, 4⟩]) = none ∧
    (placeOrder demoDbCamera 7 [⟨2, 4⟩] "addr" "TRK1").toOption.map
        (fun x => (x.2.1.fraudRisk, x.2.1.fraudReasons)) =
      some (Risk.medium, jsonStringifyStringList [highValueReason 1600]) := by
  refine ⟨⟨by norm_num, by norm_num⟩, rfl, ?_⟩
  have h1 : (400 : ℚ) * 4 = 1600 := by norm_num
  have h2 : (1000 : ℚ) < 1600 := by norm_num
  simp +decide [placeOrder, validateItems, getProduct, demoDbCamera, commitOrder,
    coordFraudResult, detectFraudRisk, fraudScoreReasons, rule3Hit, coordFraudItems,
    userHistoryOf, riskBand, nextOrderId, Except.toOption, h1, h2]

/-- Claim C6 counterexample: the evaluator's `fraud_reasons` and the success
payload's `fraudReasons` are the `JSON.stringify` encoding of the reasons
array — a single string (which differs from the reason it encodes), not a
list of strings. -/
theorem fraud_reasons_json_string_cex :
    (detectFraudRisk { total_amount := some 1600, items := [] }
        (some { total_orders := 1, total_spent := some 50 })).fraud_reasons =
      jsonStringifyStringList [highValueReason 1600] ∧
    jsonStringifyStringList [highValueReason 1600] ≠ highValueReason 1600 ∧
    (placeOrder demoDbCamera 7 [⟨2, 4⟩] "addr" "TRK1").toOption.map
        (fun x => x.2.1.fraudReasons) =
      some (jsonStringifyStringList [highValueReason 1600]) := by
  have h2 : (1000 : ℚ) < 1600 := by norm_num
  have hf : ⌊(1600 : ℚ) * 100⌋ = (160000 : Int) := by norm_num
  have htf : toFixed2 1600 = "1600.00" := by simp +decide [toFixed2, hf]
  have hr : highValueReason 1600 = "High order value ($1600.00)" := by
    simp +decide [highValueReason, htf]
  refine ⟨?_, ?_, ?_⟩
  · simp +decide [detectFraudRisk, fraudScoreReasons, rule3Hit, riskBand, h2]
  · simp only [hr]
    decide
  · have h1 : (400 : ℚ) * 4 = 1600 := by norm_num
    simp +decide [placeOrder, validateItems, getProduct, demoDbCamera, commitOrder,
      coordFraudResult, detectFraudRisk, fraudScoreReasons, rule3Hit, coordFraudItems,
      userHistoryOf, riskBand, nextOrderId, Except.toOption, h1, h2]

/-- Claim C9: the real-time `inventory_update` handler performs no range
check on the supplied quantity — from a valid state (stock 5 ≥ 0) an admin
socket message carrying quantity -5 drives `stock_quantity` to -5, breaking
the `stockQuantity >= 0` invariant that order placement and the admin REST
route (which rejects negatives) maintain. -/
theorem socket_inventory_update_negative_stock :
    stockOf demoDb 1 = some 5 ∧ ((0 : Int) ≤ 5) ∧
    stockOf (socketInventoryUpdate demoDb "admin" 1 1 (-5) none).1 1 = some (-5) ∧
    ¬ ((0 : Int) ≤ -5) ∧
    (adminUpdateStockRoute demoDb 1 (-5)).1 = demoDb := by
  exact ⟨rfl, by decide, by rfl, by decide, by rfl⟩

/-- Claim C10: an order with two lines for the same product, each line within
current stock, succeeds; both lines are validated against the same initial
stock read, one order_items row and one inventory transaction row are written
per line, and the final stock is the initial stock minus only the last line's
quantity — the earlier line's decrement is overwritten by the absolute
UPDATE. -/
theorem duplicate_line_order_last_write_wins (db : DBState) (uid pid q1 q2 : Nat)
    (addr trk : String) (p : Product)
    (hp : getProduct db pid = some p)
    (h1 : (q1 : Int) ≤ p.stock_quantity)
    (h2 : (q2 : Int) ≤ p.stock_quantity) :
    ∃ T u1 u2 db' res evs,
      validateItems db [⟨pid, q1⟩, ⟨pid, q2⟩] = Except.ok (T, [u1, u2]) ∧
      u1.previousStock = p.stock_quantity ∧
      u2.previousStock = p.stock_quantity ∧
      u1.quantity = q1 ∧ u2.quantity = q2 ∧
      placeOrder db uid [⟨pid, q1⟩, ⟨pid, q2⟩] addr trk = Except.ok (db', res, evs) ∧
      db'.order_items = db.order_items ++
        [mkOrderItemRow (nextOrderId db) u1, mkOrderItemRow (nextOrderId db) u2] ∧
      db'.inventory_transactions = db.inventory_transactions ++
        [mkSaleTxn (nextOrderId db) uid u1, mkSaleTxn (nextOrderId db) uid u2] ∧
      stockOf db' pid = some (p.stock_quantity - (q2 : Int)) := by
  have hpid : p.id = pid := by
    unfold getProduct at hp
    simpa using List.find?_some hp
  have hn1 : ¬ (p.stock_quantity < (q1 : Int)) := not_lt.mpr h1
  have hn2 : ¬ (p.stock_quantity < (q2 : Int)) := not_lt.mpr h2
  have hv : validateItems db [⟨pid, q1⟩, ⟨pid, q2⟩] =
      Except.ok (p.price * (q1 : ℚ) + (p.price * (q2 : ℚ) + 0),
        [{ productId := p.id
           productName := p.name
           quantity := q1
           price := p.price
           previousStock := p.stock_quantity
           newStock := p.stock_quantity - (q1 : Int) },
         { productId := p.id
           productName := p.name
           quantity := q2
           price := p.price
           previousStock := p.stock_quantity
           newStock := p.stock_quantity - (q2 : Int) }]) := by
    simp [validateItems, hp, hn1, hn2]
  have hpo : placeOrder db uid [⟨pid, q1⟩, ⟨pid, q2⟩] addr trk =
      Except.ok (commitOrder db uid [⟨pid, q1⟩, ⟨pid, q2⟩] addr trk
        (p.price * (q1 : ℚ) + (p.price * (q2 : ℚ) + 0))
        [{ productId := p.id
           productName := p.name
           quantity := q1
           price := p.price
           previousStock := p.stock_quantity
           newStock := p.stock_quantity - (q1 : Int) },
         { productId := p.id
           productName := p.name
           quantity := q2
           price := p.price
           previousStock := p.stock_quantity
           newStock := p.stock_quantity - (q2 : Int) }]) := by
    simp [placeOrder, hv]
  refine ⟨_, _, _, _, _, _, hv, rfl, rfl, rfl, rfl, hpo, ?_, ?_, ?_⟩
  · simp [commitOrder]
  · simp [commitOrder]
  · simp only [commitOrder, stockOf, getProduct, List.foldl]
    rw [find?_applyStockUpdate, find?_applyStockUpdate]
    unfold getProduct at hp
    rw [hp]
    simp [hpid]

end SmartOps

namespace SmartOps

/-- What a successful validation guarantees line by line: each
`ProductUpdate` snapshots the product row as read from the database the
transaction started with (no write precedes or interleaves the loop). -/
lemma validateItems_ok_forall₂ {db : DBState} {items : List OrderItemInput} :
    ∀ {T : ℚ} {ups : List ProductUpdate},
      validateItems db items = Except.ok (T, ups) →
      List.Forall₂ (fun (u : ProductUpdate) (it : OrderItemInput) =>
        u.productId = it.productId ∧ u.quantity = it.quantity ∧
        ∃ p : Product, getProduct db it.productId = some p ∧
          u.productName = p.name ∧ u.price = p.price ∧
          u.previousStock = p.stock_quantity ∧
          (it.quantity : Int) ≤ p.stock_quantity ∧
          u.newStock = p.stock_quantity - (it.quantity : Int)) ups items := by
  induction items with
  | nil =>
    intro T ups h
    simp [validateItems] at h
    rw [h.2]
    exact List.Forall₂.nil
  | cons item rest ih =>
    intro T ups h
    rw [validateItems] at h
    cases hp : getProduct db item.productId with
    | none => simp only [hp] at h; cases h
    | some product =>
      simp only [hp] at h
      by_cases hs : product.stock_quantity < (item.quantity : Int)
      · rw [if_pos hs] at h; cases h
      · rw [if_neg hs] at h
        cases hr : validateItems db rest with
        | error e => simp only [hr] at h; cases h
        | ok pr =>
          obtain ⟨restT, restUps⟩ := pr
          simp only [hr] at h
          obtain ⟨hT, hups⟩ := Prod.mk.injEq .. ▸ (Except.ok.injEq _ _).mp h
          rw [← hups]
          refine List.Forall₂.cons ?_ (ih hr)
          have hpid : product.id = item.productId := by
            unfold getProduct at hp
            simpa using List.find?_some hp
          exact ⟨hpid, rfl, product, hp, rfl, rfl, rfl, not_lt.mp hs, rfl⟩

/-- A `Forall₂` whose relation forces componentwise images to agree yields
equal maps. -/
lemma forall₂_map_eq {α β γ : Type} {R : α → β → Prop} (f : α → γ) (g : β → γ)
    (hfg : ∀ a b, R a b → f a = g b) :
    ∀ {l₁ : List α} {l₂ : List β}, List.Forall₂ R l₁ l₂ → l₁.map f = l₂.map g := by
  intro l₁ l₂ h
  induction h with
  | nil => rfl
  | cons hab _ ih => simp only [List.map_cons, hfg _ _ hab, ih]

/-- Every element on the right of a `Forall₂` has a related partner. -/
lemma forall₂_mem_right {α β : Type} {R : α → β → Prop} :
    ∀ {l₁ : List α} {l₂ : List β}, List.Forall₂ R l₁ l₂ → ∀ {b}, b ∈ l₂ →
      ∃ a ∈ l₁, R a b := by
  intro l₁ l₂ h
  induction h with
  | nil => intro b hb; cases hb
  | cons hab _ ih =>
    intro b hb
    rcases List.mem_cons.mp hb with rfl | hb2
    · exact ⟨_, List.mem_cons_self _ _, hab⟩
    · obtain ⟨a, ha, hr⟩ := ih hb2
      exact ⟨a, List.mem_cons_of_mem _ ha, hr⟩

/-- In a list whose images under `f` are pairwise distinct, `find?` on the
image value of a member returns exactly that member. -/
lemma find?_eq_some_of_nodup_map {α β : Type} [DecidableEq β] {l : List α} {f : α → β}
    (hm : (l.map f).Nodup) {a : α} (ha : a ∈ l) {v : β} (hv : f a = v) :
    l.find? (fun x => f x = v) = some a := by
  subst hv
  induction l with
  | nil => cases ha
  | cons b t ih =>
    rw [List.map_cons, List.nodup_cons] at hm
    rcases List.mem_cons.mp ha with rfl | hat
    · simp
    · have hne : ¬ f b = f a := fun he => hm.1 (by rw [he]; exact List.mem_map_of_mem f hat)
      rw [List.find?_cons_of_neg _ (by simpa using hne)]
      exact ih hm.2 hat

/-- In a list whose images under `f` are pairwise distinct, filtering on the
image value of a member keeps exactly that member. -/
lemma filter_eq_singleton_of_nodup_map {α β : Type} [DecidableEq β] {l : List α} {f : α → β}
    (hm : (l.map f).Nodup) {a : α} (ha : a ∈ l) {v : β} (hv : f a = v) :
    l.filter (fun x => f x = v) = [a] := by
  subst hv
  induction l with
  | nil => cases ha
  | cons b t ih =>
    rw [List.map_cons, List.nodup_cons] at hm
    rcases List.mem_cons.mp ha with rfl | hat
    · rw [List.filter_cons_of_pos (by simp)]
      have hnil : t.filter (fun x => f x = f a) = [] := by
        rw [List.filter_eq_nil_iff]
        intro x hx
        simpa using fun he => hm.1 (by rw [← he]; exact List.mem_map_of_mem f hx)
      rw [hnil]
    · have hne : ¬ f b = f a := fun he => hm.1 (by rw [he]; exact List.mem_map_of_mem f hat)
      rw [List.filter_cons_of_neg (by simpa using hne)]
      exact ih hm.2 hat

/-- Unfolding `lastUpdFor` over a cons cell. -/
lemma lastUpdFor_cons (u : ProductUpdate) (ups : List ProductUpdate) (pid : Nat) :
    lastUpdFor (u :: ups) pid =
      (lastUpdFor ups pid).or (if u.productId = pid then some u else none) := by
  unfold lastUpdFor
  rw [List.reverse_cons, List.find?_append]
  by_cases h : u.productId = pid <;> simp [h]

/-- Folding the absolute stock writes over the product table rewrites each
present product to the `newStock` of the last update that targets it. -/
lemma find?_foldl_applyStockUpdate (ups : List ProductUpdate) :
    ∀ (ps : List Product) (pid : Nat) (p : Product),
      ps.find? (fun q => q.id = pid) = some p →
      (ups.foldl applyStockUpdate ps).find? (fun q => q.id = pid) =
        some (match lastUpdFor ups pid with
              | some u => { p with stock_quantity := u.newStock }
              | none => p) := by
  induction ups with
  | nil =>
    intro ps pid p hp
    simpa [lastUpdFor] using hp
  | cons u rest ih =>
    intro ps pid p hp
    have hpid : p.id = pid := by simpa using List.find?_some hp
    have hp2 : (applyStockUpdate ps u).find? (fun q => q.id = pid) =
        some (if p.id = u.productId then { p with stock_quantity := u.newStock } else p) := by
      rw [find?_applyStockUpdate, hp]; rfl
    rw [List.foldl_cons, ih (applyStockUpdate ps u) pid _ hp2, lastUpdFor_cons]
    cases hl : lastUpdFor rest pid with
    | some v => by_cases hu : p.id = u.productId <;> simp [hu, Option.or]
    | none =>
      by_cases hu : u.productId = pid
      · have : p.id = u.productId := by rw [hpid, hu]
        simp [Option.or, hu, this]
      · have : ¬ p.id = u.productId := by rw [hpid]; exact fun hh => hu hh.symm
        simp [Option.or, hu, this]

/-- The rule-3 probe over the items the coordinator forwards finds nothing:
the forwarded objects carry no `price` property. -/
lemma rule3Hit_coordFraudItems (items : List OrderItemInput) :
    rule3Hit (coordFraudItems items) = none := by
  unfold rule3Hit coordFraudItems
  rw [List.find?_map]
  have hfun : ((fun (it : FraudItem) =>
      match it.price with
      | some pr => decide (300 < pr ∧ 3 < it.quantity)
      | none => false) ∘ fun (it : OrderItemInput) =>
        ({ price := none, quantity := it.quantity, name := none } : FraudItem)) =
      fun _ => false := rfl
  rw [hfun]
  simp

/-- The bundled per-line facts behind the ledger claims: for every line of a
successful distinct-product order, the validation snapshot, the last-write
analysis of the stock fold, and the resulting live stock. -/
lemma placeOrder_line_facts {db : DBState} {uid : Nat} {items : List OrderItemInput}
    {addr trk : String} {db' : DBState} {res : OrderResult} {evs : List Event}
    {T : ℚ} {ups : List ProductUpdate}
    (hnodup : (items.map fun it => it.productId).Nodup)
    (hv : validateItems db items = Except.ok (T, ups))
    (hout : (db', res, evs) = commitOrder db uid items addr trk T ups) :
    ∀ it ∈ items, ∃ u ∈ ups, ∃ p : Product,
      getProduct db it.productId = some p ∧
      u.productId = it.productId ∧ u.quantity = it.quantity ∧
      u.previousStock = p.stock_quantity ∧
      u.newStock = p.stock_quantity - (it.quantity : Int) ∧
      lastUpdFor ups it.productId = some u ∧
      stockOf db' it.productId = some u.newStock := by
  have F := validateItems_ok_forall₂ hv
  have hdb : db' = (commitOrder db uid items addr trk T ups).1 := congrArg Prod.fst hout
  have hpidmap : ups.map (fun u => u.productId) = items.map (fun it => it.productId) :=
    forall₂_map_eq _ _ (fun u it hr => hr.1) F
  have hnod : (ups.map fun u => u.productId).Nodup := by rw [hpidmap]; exact hnodup
  intro it hit
  obtain ⟨u, hu, hr⟩ := forall₂_mem_right F hit
  obtain ⟨hupid, huq, p, hp, hname, hprice, hprev, hle, hnew⟩ := hr
  have hlast : lastUpdFor ups it.productId = some u := by
    unfold lastUpdFor
    refine @find?_eq_some_of_nodup_map ProductUpdate Nat _ ups.reverse
      (fun x => x.productId) ?_ u ?_ it.productId hupid
    · rw [List.map_reverse]
      exact List.nodup_reverse.mpr hnod
    · exact List.mem_reverse.mpr hu
  have hfoldl := find?_foldl_applyStockUpdate ups db.products it.productId p
    (by unfold getProduct at hp; exact hp)
  simp only [hlast] at hfoldl
  refine ⟨u, hu, p, hp, hupid, huq, hprev, hnew, hlast, ?_⟩
  rw [hdb]
  simp only [stockOf, getProduct, commitOrder]
  rw [hfoldl]
  rfl

end SmartOps

namespace SmartOps

/-- Claim C2 (amended to orders whose lines reference pairwise-distinct
products; a duplicated product id breaks the per-product decrement, see the
counterexample): for every successful placeOrder over distinct products, each
referenced product's final stock is its prior stock minus the total quantity
ordered for it, exactly one `sale` transaction row is appended per line with
previousQuantity - quantity = newQuantity, and the most recent transaction
row of each referenced product carries its live post-commit stock. -/
theorem placeOrder_distinct_lines_ledger (db : DBState) (uid : Nat)
    (items : List OrderItemInput) (addr trk : String)
    (db' : DBState) (res : OrderResult) (evs : List Event)
    (hnodup : (items.map fun it => it.productId).Nodup)
    (h : placeOrder db uid items addr trk = Except.ok (db', res, evs)) :
    (∀ it ∈ items, ∃ p : Product, getProduct db it.productId = some p ∧
        stockOf db' it.productId =
          some (p.stock_quantity - (totalQtyFor items it.productId : Int))) ∧
    (∃ txns, db'.inventory_transactions = db.inventory_transactions ++ txns ∧
      List.Forall₂ (fun (t : InvTxnRow) (it : OrderItemInput) =>
        t.type = TxnType.sale ∧ t.product_id = it.productId ∧
        t.previous_quantity - (it.quantity : Int) = t.new_quantity) txns items) ∧
    (∀ it ∈ items, ∃ t, lastTxnFor db'.inventory_transactions it.productId = some t ∧
        some t.new_quantity = stockOf db' it.productId) := by
  obtain ⟨T, ups, hv, hout⟩ := placeOrder_ok_elim h
  have facts := placeOrder_line_facts hnodup hv hout
  have F := validateItems_ok_forall₂ hv
  have hdbtx : db'.inventory_transactions =
      db.inventory_transactions ++ ups.map (mkSaleTxn (nextOrderId db) uid) := by
    rw [show db' = (commitOrder db uid items addr trk T ups).1 from congrArg Prod.fst hout]
    rfl
  refine ⟨?_, ?_, ?_⟩
  · intro it hit
    obtain ⟨u, hu, p, hp, hupid, huq, hprev, hnew, hlast, hs⟩ := facts it hit
    refine ⟨p, hp, ?_⟩
    have htq : totalQtyFor items it.productId = it.quantity := by
      unfold totalQtyFor
      rw [filter_eq_singleton_of_nodup_map hnodup hit rfl]
      simp
    rw [hs, hnew, htq]
  · refine ⟨ups.map (mkSaleTxn (nextOrderId db) uid), hdbtx, ?_⟩
    rw [List.forall₂_map_left_iff]
    refine F.imp ?_
    intro u it hr
    obtain ⟨hupid, huq, p, hp, hname, hprice, hprev, hle, hnew⟩ := hr
    refine ⟨rfl, hupid, ?_⟩
    show u.previousStock - (it.quantity : Int) = u.newStock
    rw [hprev, hnew]
  · intro it hit
    obtain ⟨u, hu, p, hp, hupid, huq, hprev, hnew, hlast, hs⟩ := facts it hit
    refine ⟨mkSaleTxn (nextOrderId db) uid u, ?_, ?_⟩
    · unfold lastTxnFor
      rw [hdbtx, List.reverse_append, List.find?_append]
      have hmap : (ups.map (mkSaleTxn (nextOrderId db) uid)).reverse =
          ups.reverse.map (mkSaleTxn (nextOrderId db) uid) := by
        rw [List.map_reverse]
      rw [hmap, List.find?_map]
      have hcomp : ((fun (t : InvTxnRow) => decide (t.product_id = it.productId)) ∘
          mkSaleTxn (nextOrderId db) uid) =
          fun (u : ProductUpdate) => decide (u.productId = it.productId) := rfl
      rw [hcomp]
      have : ups.reverse.find? (fun u => decide (u.productId = it.productId)) = some u := hlast
      rw [this]
      rfl
    · show some (mkSaleTxn (nextOrderId db) uid u).new_quantity = _
      rw [hs]
      rfl

end SmartOps

namespace SmartOps

/-- Claim C4 (amended: the code emits `order_created` first, then one
`inventory_changed` per validated line — for duplicate-free orders one per
affected product — then `cart_updated`; see the counterexample for the
claimed inventory-first order): the broadcast sequence of every successful
placeOrder. -/
theorem placeOrder_broadcast_sequence (db : DBState) (uid : Nat)
    (items : List OrderItemInput) (addr trk : String)
    (db' : DBState) (res : OrderResult) (evs : List Event)
    (h : placeOrder db uid items addr trk = Except.ok (db', res, evs)) :
    evs = Event.order_created (nextOrderId db) ::
      items.map (fun it => Event.inventory_changed it.productId) ++
      [Event.cart_updated uid] := by
  obtain ⟨T, ups, hv, hout⟩ := placeOrder_ok_elim h
  have F := validateItems_ok_forall₂ hv
  have hpidmap : ups.map (fun u => u.productId) = items.map (fun it => it.productId) :=
    forall₂_map_eq _ _ (fun u it hr => hr.1) F
  have hevs : evs = (commitOrder db uid items addr trk T ups).2.2 :=
    congrArg (fun x => x.2.2) hout
  rw [hevs]
  show Event.order_created (nextOrderId db) ::
      ups.map (fun u => Event.inventory_changed u.productId) ++ [Event.cart_updated uid] = _
  have hmaps : ups.map (fun u => Event.inventory_changed u.productId) =
      items.map (fun it => Event.inventory_changed it.productId) := by
    have h1 : ups.map (fun u => Event.inventory_changed u.productId) =
        (ups.map (fun u => u.productId)).map Event.inventory_changed := by
      rw [List.map_map]; rfl
    have h2 : items.map (fun it => Event.inventory_changed it.productId) =
        (items.map (fun it => it.productId)).map Event.inventory_changed := by
      rw [List.map_map]; rfl
    rw [h1, h2, hpidmap]
  rw [hmaps]

/-- Witness for the amended C4: the concrete successful order's events match
the order_created-first sequence. -/
theorem placeOrder_broadcast_sequence_witness :
    [Event.order_created 1, Event.inventory_changed 1, Event.cart_updated 7] =
      Event.order_created (nextOrderId demoDb) ::
        ([⟨1, 2⟩] : List OrderItemInput).map (fun it => Event.inventory_changed it.productId) ++
        [Event.cart_updated 7] := by
  have hev : (placeOrder demoDb 7 [⟨1, 2⟩] "addr" "TRK1").toOption.map (fun x => x.2.2) =
      some [Event.order_created 1, Event.inventory_changed 1, Event.cart_updated 7] := by
    simp +decide [placeOrder, validateItems, getProduct, demoDb, commitOrder, coordFraudResult,
      detectFraudRisk, fraudScoreReasons, rule3Hit, coordFraudItems, userHistoryOf, riskBand,
      nextOrderId, Except.toOption]
  cases hpo : placeOrder demoDb 7 [⟨1, 2⟩] "addr" "TRK1" with
  | error e => rw [hpo] at hev; simp [Except.toOption] at hev
  | ok v =>
    obtain ⟨db', res, evs⟩ := v
    rw [hpo] at hev
    simp only [Except.toOption, Option.map_some', Option.some.injEq] at hev
    rw [← hev]
    exact placeOrder_broadcast_sequence demoDb 7 [⟨1, 2⟩] "addr" "TRK1" db' res evs hpo

/-- Claim C6 (amended: the evaluator returns the reasons as one JSON-encoded
string — `JSON.stringify` of the reasons array — and the success payload's
`fraudReasons` field carries that JSON-encoded string, not a list of
strings): for every successful placeOrder the payload field equals the JSON
encoding of the reasons list computed for the order. -/
theorem fraud_reasons_json_encoded (db : DBState) (uid : Nat)
    (items : List OrderItemInput) (addr trk : String)
    (db' : DBState) (res : OrderResult) (evs : List Event)
    (h : placeOrder db uid items addr trk = Except.ok (db', res, evs)) :
    ∃ T ups, validateItems db items = Except.ok (T, ups) ∧
      res.fraudReasons = jsonStringifyStringList
        (fraudScoreReasons { total_amount := some T, items := coordFraudItems items }
          (some (userHistoryOf db uid))).2 := by
  obtain ⟨T, ups, hv, hout⟩ := placeOrder_ok_elim h
  refine ⟨T, ups, hv, ?_⟩
  have hres : res = (commitOrder db uid items addr trk T ups).2.1 :=
    congrArg (fun x => x.2.1) hout
  rw [hres]
  rfl

/-- Witness for the amended C6: the concrete order's payload field is the
JSON encoding of its singleton reasons list. -/
theorem fraud_reasons_json_encoded_witness :
    ∃ T ups, validateItems demoDbCamera [⟨2, 4⟩] = Except.ok (T, ups) ∧
      "[\"High order value ($1600.00)\"]" = jsonStringifyStringList
        (fraudScoreReasons { total_amount := some T, items := coordFraudItems [⟨2, 4⟩] }
          (some (userHistoryOf demoDbCamera 7))).2 := by
  have h1 : (400 : ℚ) * 4 = 1600 := by norm_num
  have h2 : (1000 : ℚ) < 1600 := by norm_num
  have hf : ⌊(1600 : ℚ) * 100⌋ = (160000 : Int) := by norm_num
  have htf : toFixed2 1600 = "1600.00" := by simp +decide [toFixed2, hf]
  have hev : (placeOrder demoDbCamera 7 [⟨2, 4⟩] "addr" "TRK1").toOption.map
      (fun x => x.2.1.fraudReasons) = some "[\"High order value ($1600.00)\"]" := by
    simp +decide [placeOrder, validateItems, getProduct, demoDbCamera, commitOrder,
      coordFraudResult, detectFraudRisk, fraudScoreReasons, rule3Hit, coordFraudItems,
      userHistoryOf, riskBand, nextOrderId, Except.toOption, jsonStringifyStringList,
      jsonStringifyString, jsonEscape, highValueReason, htf, h1, h2]
  cases hpo : placeOrder demoDbCamera 7 [⟨2, 4⟩] "addr" "TRK1" with
  | error e => rw [hpo] at hev; simp [Except.toOption] at hev
  | ok v =>
    obtain ⟨db', res, evs⟩ := v
    rw [hpo] at hev
    simp only [Except.toOption, Option.map_some', Option.some.injEq] at hev
    obtain ⟨T, ups, hval, hfr⟩ :=
      fraud_reasons_json_encoded demoDbCamera 7 [⟨2, 4⟩] "addr" "TRK1" db' res evs hpo
    exact ⟨T, ups, hval, by rw [← hev, hfr]⟩

end SmartOps

namespace SmartOps

/-- Claim C7: a user with zero prior orders placing a single line of
quantity 1 at total 1500 gets fraud score at least 90 (40 for high order
value plus 50 for a first-time large order), risk `high` in the response and
in the stored order row, and reasons containing both triggered rules. -/
theorem first_time_large_order_high_risk (db : DBState) (uid pid : Nat)
    (addr trk : String) (p : Product)
    (hp : getProduct db pid = some p)
    (hprice : p.price = 1500)
    (hstock : (1 : Int) ≤ p.stock_quantity)
    (hhist : db.orders.filter (fun o => o.user_id = uid) = []) :
    90 ≤ (fraudScoreReasons
        { total_amount := some 1500, items := coordFraudItems [⟨pid, 1⟩] }
        (some (userHistoryOf db uid))).1 ∧
    highValueReason 1500 ∈ (fraudScoreReasons
        { total_amount := some 1500, items := coordFraudItems [⟨pid, 1⟩] }
        (some (userHistoryOf db uid))).2 ∧
    firstTimeReason ∈ (fraudScoreReasons
        { total_amount := some 1500, items := coordFraudItems [⟨pid, 1⟩] }
        (some (userHistoryOf db uid))).2 ∧
    ∃ db' res evs row,
      placeOrder db uid [⟨pid, 1⟩] addr trk = Except.ok (db', res, evs) ∧
      res.fraudRisk = Risk.high ∧
      db'.orders = db.orders ++ [row] ∧ row.fraud_risk = Risk.high := by
  have hh : userHistoryOf db uid = { total_orders := 0, total_spent := none } := by
    unfold userHistoryOf
    rw [hhist]
    rfl
  have c1 : (1000 : ℚ) < 1500 := by norm_num
  have c2 : (500 : ℚ) < 1500 := by norm_num
  have hscore : fraudScoreReasons
      { total_amount := some 1500, items := coordFraudItems [⟨pid, 1⟩] }
      (some ({ total_orders := 0, total_spent := none } : UserHistory)) =
      (90, [highValueReason 1500, firstTimeReason]) := by
    unfold fraudScoreReasons
    rw [rule3Hit_coordFraudItems]
    simp [c1, c2]
  have hn1 : ¬ (p.stock_quantity < ((1 : ℕ) : Int)) := not_lt.mpr hstock
  have hv : validateItems db [⟨pid, 1⟩] =
      Except.ok (p.price * ((1 : ℕ) : ℚ) + 0,
        [{ productId := p.id
           productName := p.name
           quantity := 1
           price := p.price
           previousStock := p.stock_quantity
           newStock := p.stock_quantity - ((1 : ℕ) : Int) }]) := by
    simp [validateItems, hp, hn1, hstock]
  have hT : p.price * ((1 : ℕ) : ℚ) + 0 = 1500 := by
    rw [hprice]
    norm_num
  rw [hT] at hv
  have hpo : placeOrder db uid [⟨pid, 1⟩] addr trk =
      Except.ok (commitOrder db uid [⟨pid, 1⟩] addr trk 1500
        [{ productId := p.id
           productName := p.name
           quantity := 1
           price := p.price
           previousStock := p.stock_quantity
           newStock := p.stock_quantity - ((1 : ℕ) : Int) }]) := by
    simp [placeOrder, hv]
  have hrisk : (coordFraudResult db uid [⟨pid, 1⟩] 1500).fraud_risk = Risk.high := by
    unfold coordFraudResult detectFraudRisk
    rw [hh]
    simp only [hscore]
    rfl
  rw [hh]
  rw [hscore]
  refine ⟨by norm_num, by simp, by simp, _, _, _, _, hpo, ?_, rfl, ?_⟩
  · show (coordFraudResult db uid [⟨pid, 1⟩] 1500).fraud_risk = Risk.high
    exact hrisk
  · show (coordFraudResult db uid [⟨pid, 1⟩] 1500).fraud_risk = Risk.high
    exact hrisk

/-- Witness for C7: on the concrete laptop database, user 7 (no prior
orders) ordering one 1500-dollar laptop scores 90 and is recorded high. -/
theorem first_time_large_order_high_risk_witness :
    getProduct demoDbLaptop 3 = some { id := 3, name := "Laptop", price := 1500, stock_quantity := 5 } ∧
    demoDbLaptop.orders.filter (fun o => o.user_id = 7) = [] ∧
    (90 ≤ (fraudScoreReasons
        { total_amount := some 1500, items := coordFraudItems [⟨3, 1⟩] }
        (some (userHistoryOf demoDbLaptop 7))).1 ∧
    highValueReason 1500 ∈ (fraudScoreReasons
        { total_amount := some 1500, items := coordFraudItems [⟨3, 1⟩] }
        (some (userHistoryOf demoDbLaptop 7))).2 ∧
    firstTimeReason ∈ (fraudScoreReasons
        { total_amount := some 1500, items := coordFraudItems [⟨3, 1⟩] }
        (some (userHistoryOf demoDbLaptop 7))).2 ∧
    ∃ db' res evs row,
      placeOrder demoDbLaptop 7 [⟨3, 1⟩] "addr" "TRK1" = Except.ok (db', res, evs) ∧
      res.fraudRisk = Risk.high ∧
      db'.orders = demoDbLaptop.orders ++ [row] ∧ row.fraud_risk = Risk.high) := by
  refine ⟨rfl, rfl, ?_⟩
  exact first_time_large_order_high_risk demoDbLaptop 7 3 "addr" "TRK1"
    { id := 3, name := "Laptop", price := 1500, stock_quantity := 5 }
    rfl rfl (by decide) rfl

/-- Claim C8: on a non-numeric (NaN) total amount the fraud evaluator still
returns (it is a total function of its inputs), contributes exactly 10
points together with its own reason — rules 1 and 2 cannot fire on NaN, so
the score is 10 plus only the rule-3 contribution — and identical inputs
always produce identical output. -/
theorem nan_total_amount_degrades (o : FraudOrder) (hist : Option UserHistory)
    (hnan : o.total_amount = none) :
    (fraudScoreReasons o hist).1 =
      10 + (match rule3Hit o.items with | some _ => 30 | none => 0) ∧
    (fraudScoreReasons o hist).2 = invalidAmountReason ::
      (match rule3Hit o.items with
       | some it => [bulkHighValueReason it.name]
       | none => []) ∧
    invalidAmountReason ∈ (fraudScoreReasons o hist).2 ∧
    ∀ o2 h2, o = o2 → hist = h2 → detectFraudRisk o hist = detectFraudRisk o2 h2 := by
  obtain ⟨t, its⟩ := o
  simp only at hnan
  subst hnan
  refine ⟨?_, ?_, ?_, ?_⟩
  · unfold fraudScoreReasons
    cases hr : rule3Hit its <;> cases hist <;> simp [hr]
  · unfold fraudScoreReasons
    cases hr : rule3Hit its <;> cases hist <;> simp [hr]
  · unfold fraudScoreReasons
    cases hr : rule3Hit its <;> cases hist <;> simp [hr]
  · intro o2 h2 e1 e2
    rw [e1, e2]

/-- Witness for C8: the evaluator at a concrete NaN order. -/
theorem nan_total_amount_degrades_witness :
    ({ total_amount := none, items := [] } : FraudOrder).total_amount = none ∧
    ((fraudScoreReasons { total_amount := none, items := [] } none).1 =
      10 + (match rule3Hit ([] : List FraudItem) with | some _ => 30 | none => 0) ∧
    (fraudScoreReasons { total_amount := none, items := [] } none).2 = invalidAmountReason ::
      (match rule3Hit ([] : List FraudItem) with
       | some it => [bulkHighValueReason it.name]
       | none => []) ∧
    invalidAmountReason ∈ (fraudScoreReasons { total_amount := none, items := [] } none).2 ∧
    ∀ o2 h2, ({ total_amount := none, items := [] } : FraudOrder) = o2 →
      (none : Option UserHistory) = h2 →
      detectFraudRisk { total_amount := none, items := [] } none = detectFraudRisk o2 h2) := by
  exact ⟨rfl, nan_total_amount_degrades { total_amount := none, items := [] } none rfl⟩

end SmartOps

namespace SmartOps

/-- The demo database after user 7 successfully orders 2 Widgets. -/
def demoDbAfterOrder : DBState :=
  { products := [{ id := 1, name := "Widget", price := 10, stock_quantity := 3 }]
    orders := [{ id := 1
                 user_id := 7
                 total_amount := 20
                 shipping_address := "addr"
                 status := "pending"
                 tracking_number := "TRK1"
                 fraud_risk := Risk.low
                 fraud_reasons := "\"[]\"" }]
    order_items := [{ order_id := 1, product_id := 1, quantity := 2, price := 10 }]
    shipments := [{ order_id := 1
                    tracking_number := "TRK1"
                    status := "pending"
                    current_location := "Processing Center" }]
    inventory_transactions := [{ product_id := 1
                                 type := TxnType.sale
                                 quantity := -2
                                 previous_quantity := 5
                                 new_quantity := 3
                                 reason := "Order #1"
                                 created_by := 7 }]
    cart_items := [] }

/-- Witness for the amended C2: the concrete duplicate-free order satisfies
the per-product ledger equations. -/
theorem placeOrder_distinct_lines_ledger_witness :
    (([⟨1, 2⟩] : List OrderItemInput).map fun it => it.productId).Nodup ∧
    ((∀ it ∈ ([⟨1, 2⟩] : List OrderItemInput), ∃ p : Product,
        getProduct demoDb it.productId = some p ∧
        stockOf demoDbAfterOrder it.productId =
          some (p.stock_quantity - (totalQtyFor [⟨1, 2⟩] it.productId : Int))) ∧
    (∃ txns, demoDbAfterOrder.inventory_transactions =
        demoDb.inventory_transactions ++ txns ∧
      List.Forall₂ (fun (t : InvTxnRow) (it : OrderItemInput) =>
        t.type = TxnType.sale ∧ t.product_id = it.productId ∧
        t.previous_quantity - (it.quantity : Int) = t.new_quantity) txns [⟨1, 2⟩]) ∧
    (∀ it ∈ ([⟨1, 2⟩] : List OrderItemInput), ∃ t,
        lastTxnFor demoDbAfterOrder.inventory_transactions it.productId = some t ∧
        some t.new_quantity = stockOf demoDbAfterOrder it.productId)) := by
  have h1 : (10 : ℚ) * 2 = 20 := by norm_num
  have hpo : placeOrder demoDb 7 [⟨1, 2⟩] "addr" "TRK1" =
      Except.ok (demoDbAfterOrder,
        { orderId := 1
          trackingNumber := "TRK1"
          totalAmount := 20
          fraudRisk := Risk.low
          fraudReasons := "[]" },
        [Event.order_created 1, Event.inventory_changed 1, Event.cart_updated 7]) := by
    simp +decide [placeOrder, validateItems, getProduct, demoDb, demoDbAfterOrder, commitOrder,
      coordFraudResult, detectFraudRisk, fraudScoreReasons, rule3Hit, coordFraudItems,
      userHistoryOf, riskBand, nextOrderId, applyStockUpdate, mkSaleTxn, mkOrderItemRow,
      jsonStringifyStringList, jsonStringifyString, jsonEscape, h1]
  exact ⟨by decide,
    placeOrder_distinct_lines_ledger demoDb 7 [⟨1, 2⟩] "addr" "TRK1" demoDbAfterOrder
      { orderId := 1
        trackingNumber := "TRK1"
        totalAmount := 20
        fraudRisk := Risk.low
        fraudReasons := "[]" }
      [Event.order_created 1, Event.inventory_changed 1, Event.cart_updated 7]
      (by decide) hpo⟩

/-- Witness for C10: stock 5, two lines (quantity 3 then 1) for product 1
both pass validation against stock 5; the final stock is 5 - 1 = 4, the
first decrement is overwritten. -/
theorem duplicate_line_order_last_write_wins_witness :
    getProduct demoDb 1 = some { id := 1, name := "Widget", price := 10, stock_quantity := 5 } ∧
    ((3 : Int) ≤ (5 : Int)) ∧ ((1 : Int) ≤ (5 : Int)) ∧
    (∃ T u1 u2 db' res evs,
      validateItems demoDb [⟨1, 3⟩, ⟨1, 1⟩] = Except.ok (T, [u1, u2]) ∧
      u1.previousStock = (5 : Int) ∧
      u2.previousStock = (5 : Int) ∧
      u1.quantity = 3 ∧ u2.quantity = 1 ∧
      placeOrder demoDb 7 [⟨1, 3⟩, ⟨1, 1⟩] "addr" "TRK1" = Except.ok (db', res, evs) ∧
      db'.order_items = demoDb.order_items ++
        [mkOrderItemRow (nextOrderId demoDb) u1, mkOrderItemRow (nextOrderId demoDb) u2] ∧
      db'.inventory_transactions = demoDb.inventory_transactions ++
        [mkSaleTxn (nextOrderId demoDb) 7 u1, mkSaleTxn (nextOrderId demoDb) 7 u2] ∧
      stockOf db' 1 = some ((5 : Int) - (1 : Int))) := by
  refine ⟨rfl, by decide, by decide, ?_⟩
  exact duplicate_line_order_last_write_wins demoDb 7 1 3 1 "addr" "TRK1"
    { id := 1, name := "Widget", price := 10, stock_quantity := 5 }
    rfl (by decide) (by decide)

end SmartOps
